import Mathlib

/-!
Verification of the `pulldown-html-ext` HTML writer.

This file gives a shallow embedding of the event-driven HTML rendering
engine of the repository: the render state (`src/pulldown-html-ext/src/html/state.rs`),
the configuration model (`src/pulldown-html-ext/src/html/config.rs`), the
default `HtmlWriter` operations (`src/pulldown-html-ext/src/html/writer.rs`),
the string-escaping helpers (`src/lib/src/utils.rs`), and the error path of
the syntect convenience renderer (`src/lib/src/html/syntect.rs`).

Writer operations in the source mutate a `HtmlState` and append text to an
output sink; here each operation is a pure function from the state to the
new state together with the exact string it appends.  Machine integers
(`u32`, `u64`, `usize`) are modelled as `Nat` with explicit bounds where
overflow or a fallible conversion matters; a Rust panic is modelled as
`Option.none`.
-/

namespace PulldownHtmlExt

/-- Column alignment of a table, from `pulldown_cmark::Alignment`. -/
inductive Alignment where
  | None
  | Left
  | Center
  | Right
deriving DecidableEq, Repr

/-- Link types carried by link/image tags, from `pulldown_cmark::LinkType`.
The writer never inspects the value (it is ignored by `start_link` and
`start_image`). -/
inductive LinkType where
  | Inline
  | Reference
  | ReferenceUnknown
  | Collapsed
  | CollapsedUnknown
  | Shortcut
  | ShortcutUnknown
  | Autolink
  | Email
deriving DecidableEq, Repr

/-- Heading levels 1..6, from `pulldown_cmark::HeadingLevel`. -/
inductive HeadingLevel where
  | H1
  | H2
  | H3
  | H4
  | H5
  | H6
deriving DecidableEq, Repr

/-- `level as u8` on `pulldown_cmark::HeadingLevel` (1..=6). -/
def HeadingLevel.toNat : HeadingLevel → Nat
  | .H1 => 1
  | .H2 => 2
  | .H3 => 3
  | .H4 => 4
  | .H5 => 5
  | .H6 => 6

/-- The `Display` rendering of `pulldown_cmark::HeadingLevel`, used by
`end_heading` via `format!("</{}>", level)`. -/
def HeadingLevel.display : HeadingLevel → String
  | .H1 => "h1"
  | .H2 => "h2"
  | .H3 => "h3"
  | .H4 => "h4"
  | .H5 => "h5"
  | .H6 => "h6"

/-- `pulldown_cmark::CodeBlockKind`. -/
inductive CodeBlockKind where
  | Fenced (info : String)
  | Indented
deriving DecidableEq, Repr

/-- Structural construct kinds carried by `Start`/`End` events
(`pulldown_cmark::Tag`, the variant set dispatched by the renderer in
`src/lib/src/html/mod.rs`). -/
inductive Tag where
  | Paragraph
  | Heading (level : HeadingLevel) (id : Option String) (classes : List String)
  | BlockQuote
  | CodeBlock (kind : CodeBlockKind)
  | List (first_number : Option Nat)
  | Item
  | FootnoteDefinition (name : String)
  | Table (alignments : List Alignment)
  | TableHead
  | TableRow
  | TableCell
  | Emphasis
  | Strong
  | Strikethrough
  | Link (link_type : LinkType) (dest : String) (title : String)
  | Image (link_type : LinkType) (dest : String) (title : String)
deriving DecidableEq, Repr

/-- One unit of the input stream (`pulldown_cmark::Event`). -/
inductive Event where
  | Start (tag : Tag)
  | End (tag : Tag)
  | Text (s : String)
  | Code (s : String)
  | Html (s : String)
  | SoftBreak
  | HardBreak
  | Rule
  | FootnoteReference (name : String)
  | TaskListMarker (checked : Bool)
deriving DecidableEq, Repr

/-- Current state of table parsing (`TableContext` in
`src/pulldown-html-ext/src/html/state.rs`).  `NotInTable` is the
`#[default]` variant. -/
inductive TableContext where
  | NotInTable
  | InHeader
  | InBody
deriving DecidableEq, Repr

/-- Type of list currently being processed (`ListContext` in
`src/pulldown-html-ext/src/html/state.rs`).  The `Ordered` payload is a
`u32` in the source; the operations that push it guard `n < 2^32`. -/
inductive ListContext where
  | Ordered (n : Nat)
  | Unordered
deriving DecidableEq, Repr

/-- Mutable render state (`HtmlState` in
`src/pulldown-html-ext/src/html/state.rs`). -/
structure HtmlState where
  numbers : List Nat
  table_state : TableContext
  table_cell_index : Nat
  table_alignments : List Alignment
  list_stack : List ListContext
  link_stack : List LinkType
  heading_stack : List String
  currently_in_code_block : Bool
  currently_in_footnote : Bool
deriving DecidableEq, Repr

/-- `HtmlState::new`. -/
def HtmlState.new : HtmlState :=
  { numbers := []
    table_state := .NotInTable
    table_cell_index := 0
    table_alignments := []
    list_stack := []
    link_stack := []
    heading_stack := []
    currently_in_code_block := false
    currently_in_footnote := false }

/-- HTML-output options (`HtmlOptions` in
`src/pulldown-html-ext/src/html/config.rs`). -/
structure HtmlOptions where
  escape_html : Bool
  break_on_newline : Bool
  xhtml_style : Bool
  pretty_print : Bool
deriving DecidableEq, Repr

/-- Heading options (`HeadingOptions`).  The `level_classes` hash map is
modelled as an association list keyed by the numeric level. -/
structure HeadingOptions where
  add_ids : Bool
  id_prefix : String
  level_classes : List (Nat × String)
deriving DecidableEq, Repr

/-- Link options (`LinkOptions`). -/
structure LinkOptions where
  nofollow_external : Bool
  open_external_blank : Bool
deriving DecidableEq, Repr

/-- Code-block options (`CodeBlockOptions`). -/
structure CodeBlockOptions where
  default_language : Option String
  line_numbers : Bool
deriving DecidableEq, Repr

/-- Per-element options (`ElementOptions`). -/
structure ElementOptions where
  headings : HeadingOptions
  links : LinkOptions
  code_blocks : CodeBlockOptions
deriving DecidableEq, Repr

/-- Custom attribute mappings (`AttributeMappings`).  The nested hash maps
are modelled as association lists: element name to the list of
(attribute, value) pairs, in iteration order. -/
structure AttributeMappings where
  element_attributes : List (String × List (String × String))
deriving DecidableEq, Repr

/-- Style part of the syntect configuration (`SyntectConfigStyle` in
`src/lib/src/html/syntect.rs`); the `class_style` field is not needed by
any claim and is omitted from the model of error propagation. -/
structure SyntectConfigStyle where
  theme : String
  inject_css : Bool
deriving DecidableEq, Repr

/-- Main configuration (`HtmlConfig` in
`src/pulldown-html-ext/src/html/config.rs`). -/
structure HtmlConfig where
  html : HtmlOptions
  elements : ElementOptions
  attributes : AttributeMappings
  syntect : Option SyntectConfigStyle
deriving DecidableEq, Repr

/-- `impl Default for HtmlConfig` (`src/pulldown-html-ext/src/html/config.rs`,
lines 78-109). -/
def HtmlConfig.default : HtmlConfig :=
  { html :=
      { escape_html := false
        break_on_newline := true
        xhtml_style := false
        pretty_print := true }
    elements :=
      { headings :=
          { add_ids := true
            id_prefix := "heading-"
            level_classes := [] }
        links :=
          { nofollow_external := true
            open_external_blank := true }
        code_blocks :=
          { default_language := none
            line_numbers := false } }
    attributes := { element_attributes := [] }
    syntect := none }

/-- One escaped character of `escape_html` (`src/lib/src/utils.rs`,
lines 18-30): the match arms of the character loop. -/
def escape_html_char (c : Char) : String :=
  if c = '<' then "&lt;"
  else if c = '>' then "&gt;"
  else if c = '"' then "&quot;"
  else if c = '&' then "&amp;"
  else if c = '\'' then "&#x27;"
  else String.singleton c

/-- `escape_html` from `src/lib/src/utils.rs`: escape special HTML
characters character-by-character into the output buffer. -/
def escape_html (text : String) : String :=
  text.data.foldl (fun out c => out ++ escape_html_char c) ""

/-- One escaped character of `escape_href` (`src/lib/src/utils.rs`,
lines 46-55): the eight unsafe characters are percent-encoded with
`%{:02X}` of their code point; every other character passes through. -/
def escape_href_char (c : Char) : String :=
  if c = '<' then "%3C"
  else if c = '>' then "%3E"
  else if c = '"' then "%22"
  else if c = '\'' then "%27"
  else if c = ' ' then "%20"
  else if c = '\n' then "%0A"
  else if c = '\r' then "%0D"
  else if c = '\t' then "%09"
  else String.singleton c

/-- `escape_href` from `src/lib/src/utils.rs`. -/
def escape_href (href : String) : String :=
  href.data.foldl (fun out c => out ++ escape_href_char c) ""

/-- Modelled from the spec: the body-text escape used by the writer's
`text` operation (`escape_html_body_text` of the external
`pulldown-cmark-escape` crate, whose source is not part of this
repository).  Per the spec, body text "is escaped character-by-character
... covering at minimum `< > & \x22 '`"; the model uses exactly the escape
table of this repository's own `escape_html` (`src/lib/src/utils.rs`). -/
def escape_html_body_text (text : String) : String :=
  escape_html text

/-- `HtmlWriter::write_attributes` (`src/pulldown-html-ext/src/html/writer.rs`,
lines 22-35): look up the configured attributes for `element` and render
each pair as ` key="value"`. -/
def write_attributes (cfg : HtmlConfig) (element : String) : String :=
  match cfg.attributes.element_attributes.lookup element with
  | some attrs => attrs.foldl (fun acc kv => acc ++ " " ++ kv.1 ++ "=\"" ++ kv.2 ++ "\"") ""
  | none => ""

/-- `HtmlWriter::is_external_link` (`writer.rs`, lines 44-46):
`url.starts_with("http://") || url.starts_with("https://")`.  Rust's
`str::starts_with` with a string pattern is the literal prefix test,
modelled as `List.isPrefixOf` on the characters. -/
def is_external_link (url : String) : Bool :=
  "http://".data.isPrefixOf url.data || "https://".data.isPrefixOf url.data

/-- `HtmlWriter::text` (`writer.rs`, lines 443-451): escape body text only
when `escape_html` is enabled, otherwise pass it through. -/
def text (cfg : HtmlConfig) (s : String) : String :=
  if cfg.html.escape_html then escape_html_body_text s else s

/-- `HtmlWriter::html_raw` (`writer.rs`, lines 497-499): raw HTML events
are written through unconditionally. -/
def html_raw (html : String) : String :=
  html

/-- `HtmlWriter::start_table` (`writer.rs`, lines 231-237). -/
def start_table (cfg : HtmlConfig) (alignments : List Alignment) (s : HtmlState) :
    HtmlState × String :=
  ({ s with table_state := .InHeader, table_alignments := alignments },
    "<table" ++ write_attributes cfg "table" ++ ">")

/-- `HtmlWriter::end_table` (`writer.rs`, lines 239-241): only writes the
closing tags; the state is untouched. -/
def end_table (s : HtmlState) : HtmlState × String :=
  (s, "</tbody></table>")

/-- `HtmlWriter::start_table_head` (`writer.rs`, lines 243-246). -/
def start_table_head (s : HtmlState) : HtmlState × String :=
  ({ s with table_cell_index := 0 }, "<thead><tr>")

/-- `HtmlWriter::end_table_head` (`writer.rs`, lines 248-250). -/
def end_table_head (s : HtmlState) : HtmlState × String :=
  (s, "</tr></thead><tbody>")

/-- `HtmlWriter::start_table_row` (`writer.rs`, lines 252-258). -/
def start_table_row (s : HtmlState) : HtmlState × String :=
  let s := { s with table_cell_index := 0 }
  let s := if s.table_state = .InHeader then { s with table_state := .InBody } else s
  (s, "<tr>")

/-- `HtmlWriter::end_table_row` (`writer.rs`, lines 260-262). -/
def end_table_row (s : HtmlState) : HtmlState × String :=
  (s, "</tr>")

/-- The style fragment written for one alignment entry by
`start_table_cell` (`writer.rs`, lines 273-280); `Alignment::None` writes
nothing. -/
def alignment_style : Alignment → String
  | .Left => " style=\"text-align: left\""
  | .Center => " style=\"text-align: center\""
  | .Right => " style=\"text-align: right\""
  | .None => ""

/-- `HtmlWriter::start_table_cell` (`writer.rs`, lines 264-287). -/
def start_table_cell (cfg : HtmlConfig) (s : HtmlState) : HtmlState × String :=
  let tag : String :=
    match s.table_state with
    | .InHeader => "th"
    | _ => "td"
  let style : String :=
    match s.table_alignments.get? s.table_cell_index with
    | some alignment => alignment_style alignment
    | none => ""
  ({ s with table_cell_index := s.table_cell_index + 1 },
    "<" ++ tag ++ style ++ write_attributes cfg tag ++ ">")

/-- `HtmlWriter::end_table_cell` (`writer.rs`, lines 289-291): always the
literal `</td>`, with no state access. -/
def end_table_cell (s : HtmlState) : HtmlState × String :=
  (s, "</td>")

/-- `HtmlWriter::start_list` (`writer.rs`, lines 193-215).  The source
converts the `u64` starting number by `n.try_into().unwrap()` into the
`u32` stores; `none` models the panic of that `unwrap` when
`n >= 2^32`. -/
def start_list (cfg : HtmlConfig) (first_number : Option Nat) (s : HtmlState) :
    Option (HtmlState × String) :=
  match first_number with
  | some n =>
      if n < 2 ^ 32 then
        some ({ s with numbers := s.numbers ++ [n],
                       list_stack := s.list_stack ++ [ListContext.Ordered n] },
          "<ol" ++ (if n ≠ 1 then " start=\"" ++ toString n ++ "\"" else "")
            ++ write_attributes cfg "ol" ++ ">")
      else
        none
  | none =>
      some ({ s with list_stack := s.list_stack ++ [ListContext.Unordered] },
        "<ul" ++ write_attributes cfg "ul" ++ ">")

/-- `HtmlWriter::end_list` (`writer.rs`, lines 217-219): only writes the
closing tag selected by the `ordered` flag; the state is untouched. -/
def end_list (ordered : Bool) (s : HtmlState) : HtmlState × String :=
  (s, if ordered then "</ol>" else "</ul>")

/-- `HtmlWriter::start_heading` (`writer.rs`, lines 64-128). -/
def start_heading (cfg : HtmlConfig) (level : HeadingLevel) (id : Option String)
    (classes : List String) (attrs : List (String × Option String)) (s : HtmlState) :
    HtmlState × String :=
  let level_num := level.toNat
  let add_ids := cfg.elements.headings.add_ids
  let idPrefix := cfg.elements.headings.id_prefix
  let level_classes := cfg.elements.headings.level_classes.lookup level_num
  let out := "<h" ++ toString level_num
  let heading_id := (id.map (fun x => x)).getD (idPrefix ++ toString level_num)
  let outState :=
    if add_ids then
      (out ++ " id=\"" ++ escape_html heading_id ++ "\"",
        { s with heading_stack := s.heading_stack ++ [heading_id] })
    else
      (out, s)
  let out := outState.1
  let s := outState.2
  let all_classes := (level_classes.map (fun c => [c])).getD [] ++ classes
  let out :=
    if all_classes.isEmpty then
      out
    else
      out ++ " class=\"" ++ escape_html (String.intercalate " " all_classes) ++ "\""
  let out := attrs.foldl
    (fun acc kv =>
      acc ++ " " ++ escape_html kv.1
        ++ match kv.2 with
           | some v => "=\"" ++ escape_html v ++ "\""
           | none => "")
    out
  let out := out ++ write_attributes cfg ("h" ++ toString level_num)
  (s, out ++ ">")

/-- `HtmlWriter::end_heading` (`writer.rs`, lines 129-131): writes
`format!("</{}>", level)` using the `Display` form of the level. -/
def end_heading (level : HeadingLevel) : String :=
  "</" ++ level.display ++ ">"

/-- `HtmlWriter::start_link` (`writer.rs`, lines 323-349).  The link type
argument is ignored by the source. -/
def start_link (cfg : HtmlConfig) (_link_type : LinkType) (dest title : String) : String :=
  "<a href=\"" ++ escape_href dest
    ++ (if title ≠ "" then "\" title=\"" ++ escape_html title else "")
    ++ (if is_external_link dest then
          (if cfg.elements.links.nofollow_external then "\" rel=\"nofollow" else "")
            ++ (if cfg.elements.links.open_external_blank then "\" target=\"_blank" else "")
        else "")
    ++ "\"" ++ write_attributes cfg "a" ++ ">"

/-- `HtmlWriter::end_link` (`writer.rs`, lines 351-353). -/
def end_link : String :=
  "</a>"

/-- The loop of `HtmlWriter::collect_alt_text` (`writer.rs`, lines
501-530): `alt` is the accumulated string, `nest` the nesting counter;
the loop stops when the events run out or when an `End` is seen at
nesting level 0. -/
def collect_alt_text_loop (alt : String) (nest : Nat) : List Event → String
  | [] => alt
  | e :: rest =>
    match e with
    | .Start _ => collect_alt_text_loop alt (nest + 1) rest
    | .End _ => if nest = 0 then alt else collect_alt_text_loop alt (nest - 1) rest
    | .Text t => collect_alt_text_loop (alt ++ t) nest rest
    | .Code t => collect_alt_text_loop (alt ++ t) nest rest
    | .SoftBreak => collect_alt_text_loop (alt ++ " ") nest rest
    | .HardBreak => collect_alt_text_loop (alt ++ " ") nest rest
    | _ => collect_alt_text_loop alt nest rest

/-- `HtmlWriter::collect_alt_text` on the events that follow the image
start event: `alt` starts empty and `nest` starts at 0. -/
def collect_alt_text (events : List Event) : String :=
  collect_alt_text_loop "" 0 events

/-- The alt-text collection algorithm exactly as the spec states it, as a
direct recursion (no accumulator): "maintain a nesting counter starting
at 0; Start increments the counter; End decrements it, and if the counter
was already 0 the loop terminates; Text and inline-code contribute their
literal content; soft/hard breaks contribute a single space; every other
event type is ignored." -/
def alt_text_spec : Nat → List Event → String
  | _, [] => ""
  | nest, e :: rest =>
    match e with
    | .Start _ => alt_text_spec (nest + 1) rest
    | .End _ => if nest = 0 then "" else alt_text_spec (nest - 1) rest
    | .Text t => t ++ alt_text_spec nest rest
    | .Code t => t ++ alt_text_spec nest rest
    | .SoftBreak => " " ++ alt_text_spec nest rest
    | .HardBreak => " " ++ alt_text_spec nest rest
    | _ => alt_text_spec nest rest

/-- The content one event contributes to the flattened alt text, per the
spec: text and inline code their literal content, breaks a single space,
everything else nothing. -/
def alt_contribution : Event → String
  | .Text t => t
  | .Code t => t
  | .SoftBreak => " "
  | .HardBreak => " "
  | _ => ""

/-- The flattened, tag-free alt text of an internal event sequence: the
concatenation of the per-event contributions. -/
def flatten_alt : List Event → String
  | [] => ""
  | e :: rest => alt_contribution e ++ flatten_alt rest

/-- Whether the alt-text loop consumes all of `events` without hitting the
terminating `End` (an `End` while the counter is 0). -/
def alt_loop_survives : Nat → List Event → Bool
  | _, [] => true
  | nest, e :: rest =>
    match e with
    | .Start _ => alt_loop_survives (nest + 1) rest
    | .End _ => if nest = 0 then false else alt_loop_survives (nest - 1) rest
    | _ => alt_loop_survives nest rest

/-- The nesting counter after the alt-text loop has consumed `events`. -/
def alt_nest_after : Nat → List Event → Nat
  | nest, [] => nest
  | nest, e :: rest =>
    match e with
    | .Start _ => alt_nest_after (nest + 1) rest
    | .End _ => alt_nest_after (nest - 1) rest
    | _ => alt_nest_after nest rest

/-- The error type of the renderer (`HtmlError` in
`src/lib/src/html/error.rs`, lines 6-18).  The `io::Error` and
`fmt::Error` payloads are collapsed to a message string and a unit. -/
inductive HtmlError where
  | Io (msg : String)
  | Write
  | Theme (msg : String)
  | Config (msg : String)
  | Render (msg : String)
deriving DecidableEq, Repr

/-- `SyntectWriter::get_theme` (`src/lib/src/html/syntect.rs`, lines
153-159): look the configured theme name up in the theme set and report a
distinct error string when it is absent.  The theme set is modelled by
the list of theme names it contains, and the successful lookup returns
the name (the `Theme` value itself is opaque to this development). -/
def get_theme (themes : List String) (style : SyntectConfigStyle) : Except String String :=
  if style.theme ∈ themes then
    .ok style.theme
  else
    .error ("Theme '" ++ style.theme ++ "' not found")

/-- `SyntectWriter::get_theme_css` (`syntect.rs`, lines 161-165).  The
external CSS generator `syntect::html::css_for_theme_with_class_style` is
abstracted as the function argument `css_for_theme`. -/
def get_theme_css (css_for_theme : String → String) (themes : List String)
    (style : SyntectConfigStyle) : Except String String :=
  (get_theme themes style).map css_for_theme

/-- The CSS/error tail of `push_html_with_highlighting` (`syntect.rs`,
lines 224-246), acting on the already-rendered `output`: when a syntect
style is configured with `inject_css`, a successful CSS generation
prepends a style block; a failed one is reported by `eprintln!` — the
second component collects such stderr warnings — and the plain output is
still returned.  The function's return type carries no error. -/
def push_html_with_highlighting (css_for_theme : String → String) (themes : List String)
    (cfg : HtmlConfig) (output : String) : String × List String :=
  match cfg.syntect with
  | some style =>
      if style.inject_css then
        match get_theme_css css_for_theme themes style with
        | .ok css => ("<style>" ++ css ++ "</style>\n" ++ output, [])
        | .error e => (output, ["Failed to generate syntax highlighting CSS: " ++ e])
      else
        (output, [])
  | none => (output, [])

/-- Character-by-character escaping as the spec states it: the
concatenation of the per-character escapes. -/
def chars_escaped (f : Char → String) : List Char → String
  | [] => ""
  | c :: cs => f c ++ chars_escaped f cs

/-- One list-level operation of the event stream: a `Start(List(..))` or an
`End(List(..))` event, as dispatched by the renderer to `start_list` /
`end_list`. -/
inductive ListOp where
  | start (first_number : Option Nat)
  | finish (ordered : Bool)
deriving DecidableEq, Repr

/-- Run a sequence of list operations through the writer, threading the
state; `none` propagates the panic of `start_list`. -/
def run_list_ops (cfg : HtmlConfig) : List ListOp → HtmlState → Option HtmlState
  | [], s => some s
  | ListOp.start fn :: rest, s =>
      (start_list cfg fn s).bind (fun p => run_list_ops cfg rest p.1)
  | ListOp.finish ord :: rest, s => run_list_ops cfg rest (end_list ord s).1

/-- The number of list `Start` events in a sequence of list operations. -/
def count_list_starts : List ListOp → Nat
  | [] => 0
  | ListOp.start _ :: rest => count_list_starts rest + 1
  | ListOp.finish _ :: rest => count_list_starts rest

/-! ## General helper lemmas -/

theorem str_ext {a b : String} (h : a.data = b.data) : a = b := by
  cases a
  cases b
  exact congrArg String.mk h

theorem str_assoc (a b c : String) : a ++ b ++ c = a ++ (b ++ c) :=
  str_ext (by simp [String.data_append, List.append_assoc])

theorem str_append_empty (a : String) : a ++ "" = a :=
  str_ext (by simp [String.data_append, show ("" : String).data = [] from rfl])

theorem str_empty_append (a : String) : "" ++ a = a :=
  str_ext (by simp [String.data_append, show ("" : String).data = [] from rfl])

theorem wa_default (element : String) : write_attributes HtmlConfig.default element = "" :=
  rfl

/-! ## C2: the table-phase state machine -/

/-- C2 (counterexample): after `start_table`, a first `start_table_row`
and then `end_table` on a fresh state, the table phase is *not* back to
`NotInTable` — `end_table` never resets it, contradicting the claim that
the phase "returns to NotInTable again exactly at the table end
operation". -/
theorem c2_table_phase_counterexample :
    (end_table (start_table_row
        (start_table HtmlConfig.default [] HtmlState.new).1).1).1.table_state
      ≠ TableContext.NotInTable := by
  decide

/-- C2 (amended): the initial phase is `NotInTable`; `start_table` always
moves the phase to `InHeader`; the first `start_table_row` after that
moves `InHeader` to `InBody` and later row starts leave the phase alone;
but `end_table` does not touch the state at all, so the phase never
returns to `NotInTable` within a render — a sibling table starts from the
previous table's `InBody` phase and is re-initialised only because
`start_table` sets `InHeader` unconditionally. -/
theorem c2_table_phase_machine :
    HtmlState.new.table_state = TableContext.NotInTable
  ∧ (∀ (cfg : HtmlConfig) (al : List Alignment) (s : HtmlState),
      (start_table cfg al s).1.table_state = TableContext.InHeader)
  ∧ (∀ s : HtmlState, s.table_state = TableContext.InHeader →
      (start_table_row s).1.table_state = TableContext.InBody)
  ∧ (∀ s : HtmlState, s.table_state ≠ TableContext.InHeader →
      (start_table_row s).1.table_state = s.table_state)
  ∧ (∀ s : HtmlState, (end_table s).1 = s) := by
  refine ⟨rfl, fun cfg al s => rfl, fun s h => ?_, fun s h => ?_, fun s => rfl⟩
  · simp [start_table_row, h]
  · simp [start_table_row, h]

/-- C2 witness: the amended transitions at concrete states. -/
theorem c2_table_phase_machine_witness :
    ({ HtmlState.new with table_state := TableContext.InHeader } : HtmlState).table_state
        = TableContext.InHeader
  ∧ (start_table_row
        { HtmlState.new with table_state := TableContext.InHeader }).1.table_state
        = TableContext.InBody
  ∧ (start_table_row HtmlState.new).1.table_state = HtmlState.new.table_state :=
  ⟨by decide,
    c2_table_phase_machine.2.2.1
      { HtmlState.new with table_state := TableContext.InHeader } (by decide),
    c2_table_phase_machine.2.2.2.1 HtmlState.new (by decide)⟩

/-! ## C4: the list stack -/

/-- C4 (counterexample): the balanced sequence "one unordered list start,
then its matching end" leaves one entry on the list stack, although zero
lists remain open — `end_list` never pops, contradicting the claim that
the stack depth equals the number of currently open lists after any
balanced sequence. -/
theorem c4_list_stack_counterexample :
    (run_list_ops HtmlConfig.default [ListOp.start none, ListOp.finish false]
        HtmlState.new).map (fun s => s.list_stack.length) ≠ some 0 := by
  decide

/-- C4 (amended): `start_list` pushes exactly one entry (`Ordered(n)` or
`Unordered`) onto the list stack, but `end_list` pops nothing — it leaves
the state untouched and only writes the closing tag — so after any
sequence of list operations the stack depth equals the initial depth plus
the total number of list `Start` events, not the number of currently open
lists. -/
theorem c4_list_stack_growth :
    (∀ (ord : Bool) (s : HtmlState), (end_list ord s).1 = s)
  ∧ (∀ (cfg : HtmlConfig) (ops : List ListOp) (s s' : HtmlState),
      run_list_ops cfg ops s = some s' →
      s'.list_stack.length = s.list_stack.length + count_list_starts ops) := by
  constructor
  · intro ord s
    rfl
  · intro cfg ops
    induction ops with
    | nil =>
        intro s s' h
        simp only [run_list_ops, Option.some.injEq] at h
        subst h
        simp [count_list_starts]
    | cons op rest ih =>
        intro s s' h
        cases op with
        | start fn =>
            cases fn with
            | none =>
                simp only [run_list_ops, start_list, Option.bind] at h
                have := ih _ _ h
                simp only [List.length_append, List.length_cons, List.length_nil] at this
                simp [count_list_starts, this]
                omega
            | some n =>
                simp only [run_list_ops, start_list] at h
                by_cases hn : n < 2 ^ 32
                · rw [if_pos hn] at h
                  simp only [Option.bind] at h
                  have := ih _ _ h
                  simp only [List.length_append, List.length_cons, List.length_nil] at this
                  simp [count_list_starts, this]
                  omega
                · rw [if_neg hn] at h
                  simp at h
        | finish ord =>
            simp only [run_list_ops, end_list] at h
            have := ih _ _ h
            simp [count_list_starts, this]

/-- C4 witness: one list start from the fresh state grows the stack from
depth 0 to depth 1. -/
theorem c4_list_stack_growth_witness :
    run_list_ops HtmlConfig.default [ListOp.start none] HtmlState.new
        = some { HtmlState.new with list_stack := [ListContext.Unordered] }
  ∧ ({ HtmlState.new with
        list_stack := [ListContext.Unordered] } : HtmlState).list_stack.length
      = HtmlState.new.list_stack.length + count_list_starts [ListOp.start none] :=
  ⟨by decide,
    c4_list_stack_growth.2 HtmlConfig.default [ListOp.start none] HtmlState.new
      { HtmlState.new with list_stack := [ListContext.Unordered] } (by decide)⟩

/-! ## C6: table cells -/

/-- C6: under the default configuration (no configured element
attributes), the table-cell start emits `th` exactly while the phase is
`InHeader` and `td` otherwise, appends the text-align style corresponding
to the alignment entry at the current column index (`Alignment::None` and
an out-of-range index emit no style), leaves the phase untouched, and
increments the column index by exactly one in either phase. -/
theorem c6_table_cell (s : HtmlState) :
    ((start_table_cell HtmlConfig.default s).2
      = "<" ++ (if s.table_state = TableContext.InHeader then "th" else "td")
          ++ (match s.table_alignments.get? s.table_cell_index with
              | some a => alignment_style a
              | none => "")
          ++ ">")
  ∧ (start_table_cell HtmlConfig.default s).1.table_cell_index = s.table_cell_index + 1
  ∧ (start_table_cell HtmlConfig.default s).1.table_state = s.table_state
  ∧ (start_table_cell HtmlConfig.default s).1.table_alignments = s.table_alignments
  ∧ (s.table_alignments.length ≤ s.table_cell_index →
      (start_table_cell HtmlConfig.default s).2
        = "<" ++ (if s.table_state = TableContext.InHeader then "th" else "td") ++ ">")
  ∧ alignment_style Alignment.Left = " style=\"text-align: left\""
  ∧ alignment_style Alignment.Center = " style=\"text-align: center\""
  ∧ alignment_style Alignment.Right = " style=\"text-align: right\""
  ∧ alignment_style Alignment.None = "" := by
  obtain ⟨nums, ts, idx, al, ls, ks, hs, cb, fo⟩ := s
  refine ⟨?_, rfl, rfl, rfl, ?_, rfl, rfl, rfl, rfl⟩
  · cases ts <;> simp [start_table_cell, wa_default, str_append_empty]
  · intro h
    have hg : al[idx]? = none := List.getElem?_eq_none h
    cases ts <;> simp [start_table_cell, hg, wa_default, str_append_empty]

/-- C6 witness: on the fresh state the alignment list is empty, so the
out-of-range branch applies and the cell is a bare `td`. -/
theorem c6_table_cell_witness :
    HtmlState.new.table_alignments.length ≤ HtmlState.new.table_cell_index
  ∧ (start_table_cell HtmlConfig.default HtmlState.new).2
      = "<" ++ (if HtmlState.new.table_state = TableContext.InHeader then "th" else "td")
          ++ ">" :=
  ⟨by decide, (c6_table_cell HtmlState.new).2.2.2.2.1 (by decide)⟩

/-! ## C7: default heading ids -/

/-- C7: for every heading level under the default configuration, when the
event supplies no explicit id the heading opens with
`id="heading-<level>"`; in particular a level-1 heading with text "Hello"
renders as `<h1 id="heading-1">Hello</h1>`. -/
theorem c7_heading_default_id :
    (∀ (level : HeadingLevel) (s : HtmlState),
      (start_heading HtmlConfig.default level none [] [] s).2
        = "<h" ++ toString level.toNat ++ " id=\"heading-" ++ toString level.toNat ++ "\">")
  ∧ (start_heading HtmlConfig.default HeadingLevel.H1 none [] [] HtmlState.new).2
      ++ text HtmlConfig.default "Hello" ++ end_heading HeadingLevel.H1
      = "<h1 id=\"heading-1\">Hello</h1>" := by
  constructor
  · intro level s
    cases level <;> rfl
  · rfl

/-! ## C9: header cells close as `</td>` -/

/-- C9: `end_table_cell` writes the literal `</td>` whatever the state is
— including for cells that were opened as `<th>` while the phase was
`InHeader` — so header cells open with `th` but close with `</td>`. -/
theorem c9_table_cell_close :
    (∀ s : HtmlState, end_table_cell s = (s, "</td>"))
  ∧ (∀ s : HtmlState, s.table_state = TableContext.InHeader →
      ∃ rest : String, (start_table_cell HtmlConfig.default s).2 = "<th" ++ rest) := by
  constructor
  · intro s
    rfl
  · intro s h
    refine ⟨(match s.table_alignments.get? s.table_cell_index with
             | some a => alignment_style a
             | none => "") ++ ">", ?_⟩
    simp only [start_table_cell, h]
    rw [wa_default, str_append_empty, str_assoc]
    rfl

/-- C9 witness: a concrete in-header state opens its cell with `th` and
closes it with `</td>`. -/
theorem c9_table_cell_close_witness :
    ({ HtmlState.new with table_state := TableContext.InHeader } : HtmlState).table_state
        = TableContext.InHeader
  ∧ (∃ rest : String,
      (start_table_cell HtmlConfig.default
          { HtmlState.new with table_state := TableContext.InHeader }).2 = "<th" ++ rest)
  ∧ end_table_cell { HtmlState.new with table_state := TableContext.InHeader }
      = ({ HtmlState.new with table_state := TableContext.InHeader }, "</td>") :=
  ⟨by decide,
    c9_table_cell_close.2 { HtmlState.new with table_state := TableContext.InHeader }
      (by decide),
    c9_table_cell_close.1 { HtmlState.new with table_state := TableContext.InHeader }⟩

/-! ## C10: ordered-list starting numbers -/

/-- C10: the ordered-list start converts the `u64` starting number into a
`u32` with `try_into().unwrap()`: any `n` above `u32::MAX = 4294967295`
panics (modelled as `none`) instead of returning an error, while any
in-range `n` succeeds, pushes `Ordered(n)`, and emits a `start="n"`
attribute exactly when `n ≠ 1`. -/
theorem c10_ordered_list_start (n : Nat) (s : HtmlState) (hn : n < 2 ^ 64) :
    (4294967295 < n → start_list HtmlConfig.default (some n) s = none)
  ∧ (n ≤ 4294967295 →
      start_list HtmlConfig.default (some n) s
        = some ({ s with numbers := s.numbers ++ [n],
                         list_stack := s.list_stack ++ [ListContext.Ordered n] },
            "<ol" ++ (if n ≠ 1 then " start=\"" ++ toString n ++ "\"" else "") ++ ">")) := by
  constructor
  · intro h
    have : ¬ n < 2 ^ 32 := by omega
    simp only [start_list, if_neg this]
  · intro h
    have hlt : n < 2 ^ 32 := by omega
    simp only [start_list, if_pos hlt]
    rw [wa_default, str_append_empty]

/-- C10 witness: `n = 4294967296` panics; `n = 3` succeeds with a
`start="3"` attribute; `n = 1` succeeds without one. -/
theorem c10_ordered_list_start_witness :
    start_list HtmlConfig.default (some 4294967296) HtmlState.new = none
  ∧ start_list HtmlConfig.default (some 3) HtmlState.new
      = some ({ HtmlState.new with numbers := HtmlState.new.numbers ++ [3], list_stack := HtmlState.new.list_stack ++ [ListContext.Ordered 3] },
          "<ol" ++ (if 3 ≠ 1 then " start=\"" ++ toString 3 ++ "\"" else "") ++ ">")
  ∧ start_list HtmlConfig.default (some 1) HtmlState.new
      = some ({ HtmlState.new with numbers := HtmlState.new.numbers ++ [1], list_stack := HtmlState.new.list_stack ++ [ListContext.Ordered 1] },
          "<ol" ++ (if 1 ≠ 1 then " start=\"" ++ toString 1 ++ "\"" else "") ++ ">") :=
  ⟨(c10_ordered_list_start 4294967296 HtmlState.new (by norm_num)).1 (by norm_num),
    (c10_ordered_list_start 3 HtmlState.new (by norm_num)).2 (by norm_num),
    (c10_ordered_list_start 1 HtmlState.new (by norm_num)).2 (by norm_num)⟩

/-! ## Escaping lemmas -/

theorem foldl_escape (f : Char → String) (l : List Char) :
    ∀ acc : String, l.foldl (fun out c => out ++ f c) acc = acc ++ chars_escaped f l := by
  induction l with
  | nil =>
      intro acc
      simp [chars_escaped, str_append_empty]
  | cons c cs ih =>
      intro acc
      rw [List.foldl_cons, ih (acc ++ f c), chars_escaped, str_assoc]

theorem escape_html_eq_chars (s : String) :
    escape_html s = chars_escaped escape_html_char s.data := by
  rw [escape_html, foldl_escape, str_empty_append]

theorem escape_href_eq_chars (s : String) :
    escape_href s = chars_escaped escape_href_char s.data := by
  rw [escape_href, foldl_escape, str_empty_append]

theorem mem_chars_escaped {f : Char → String} {d : Char} :
    ∀ {l : List Char}, d ∈ (chars_escaped f l).data → ∃ c ∈ l, d ∈ (f c).data := by
  intro l
  induction l with
  | nil =>
      intro h
      simp [chars_escaped, show ("" : String).data = [] from rfl] at h
  | cons c cs ih =>
      intro h
      rw [chars_escaped, String.data_append, List.mem_append] at h
      rcases h with h | h
      · exact ⟨c, by simp, h⟩
      · rcases ih h with ⟨c', hc', hd⟩
        exact ⟨c', by simp [hc'], hd⟩

theorem escape_html_char_no_bad (c : Char) :
    ∀ d ∈ (escape_html_char c).data, d ≠ '<' ∧ d ≠ '>' ∧ d ≠ '"' ∧ d ≠ '\'' := by
  unfold escape_html_char
  split_ifs with h1 h2 h3 h4 h5
  · decide
  · decide
  · decide
  · decide
  · decide
  · intro d hd
    rw [show (String.singleton c).data = [c] from rfl, List.mem_singleton] at hd
    subst hd
    exact ⟨h1, h2, h3, h5⟩

theorem escape_href_char_no_quote (c : Char) : '"' ∉ (escape_href_char c).data := by
  unfold escape_href_char
  split_ifs with h1 h2 h3 h4 h5 h6 h7 h8
  · decide
  · decide
  · decide
  · decide
  · decide
  · decide
  · decide
  · decide
  · intro hd
    rw [show (String.singleton c).data = [c] from rfl, List.mem_singleton] at hd
    exact h3 hd.symm

theorem escape_html_no_quote (s : String) : '"' ∉ (escape_html s).data := by
  rw [escape_html_eq_chars]
  intro h
  rcases mem_chars_escaped h with ⟨c, _, hd⟩
  exact ((escape_html_char_no_bad c '"' hd).2.2.1) rfl

theorem escape_href_no_quote (s : String) : '"' ∉ (escape_href s).data := by
  rw [escape_href_eq_chars]
  intro h
  rcases mem_chars_escaped h with ⟨c, _, hd⟩
  exact escape_href_char_no_quote c hd

/-! ## C3: text escaping policy -/

/-- C3: with `escape_html` enabled, the `text` operation escapes its input
character-by-character, the escape table maps each of `< > & " '` to its
entity, and the escaped output contains none of `< > " '` raw; with
`escape_html` disabled the text passes through unchanged; raw-HTML
passthrough is written through unconditionally in either mode. -/
theorem c3_text_escaping :
    (∀ (cfg : HtmlConfig) (s : String), cfg.html.escape_html = true →
      text cfg s = chars_escaped escape_html_char s.data
        ∧ ∀ d ∈ (text cfg s).data, d ≠ '<' ∧ d ≠ '>' ∧ d ≠ '"' ∧ d ≠ '\'')
  ∧ escape_html_char '<' = "&lt;"
  ∧ escape_html_char '>' = "&gt;"
  ∧ escape_html_char '&' = "&amp;"
  ∧ escape_html_char '"' = "&quot;"
  ∧ escape_html_char '\'' = "&#x27;"
  ∧ (∀ (cfg : HtmlConfig) (s : String), cfg.html.escape_html = false → text cfg s = s)
  ∧ (∀ h : String, html_raw h = h) := by
  refine ⟨?_, rfl, rfl, rfl, rfl, rfl, ?_, fun h => rfl⟩
  · intro cfg s hesc
    have htext : text cfg s = escape_html s := by
      rw [text, hesc, escape_html_body_text]
      simp
    constructor
    · rw [htext, escape_html_eq_chars]
    · intro d hd
      rw [htext, escape_html_eq_chars] at hd
      rcases mem_chars_escaped hd with ⟨c, _, hdc⟩
      exact escape_html_char_no_bad c d hdc
  · intro cfg s hesc
    rw [text, hesc]
    simp

/-- C3 witness: escaping enabled on a string holding all five special
characters, and a disabled configuration passing markup through. -/
theorem c3_text_escaping_witness :
    ({ HtmlConfig.default with
        html := { HtmlConfig.default.html with escape_html := true } }
          : HtmlConfig).html.escape_html = true
  ∧ text { HtmlConfig.default with
        html := { HtmlConfig.default.html with escape_html := true } } "<p>&\"'x"
      = chars_escaped escape_html_char "<p>&\"'x".data
  ∧ text HtmlConfig.default "x<y" = "x<y" :=
  ⟨rfl,
    (c3_text_escaping.1
      { HtmlConfig.default with
          html := { HtmlConfig.default.html with escape_html := true } } "<p>&\"'x" rfl).1,
    c3_text_escaping.2.2.2.2.2.2.1 HtmlConfig.default "x<y" rfl⟩

/-! ## C8: the theme error is downgraded to a stderr warning -/

/-- C8 (divergence witnessed on the code): when the configured syntect
theme does not exist, `get_theme` does compute a distinct theme error, but
`push_html_with_highlighting` cannot return it — its return type carries
no error — and instead reports the failure as a stderr warning and hands
the caller the plain rendered output as a success. -/
theorem c8_theme_error_downgraded (css_for_theme : String → String) (themes : List String)
    (cfg : HtmlConfig) (output : String) (style : SyntectConfigStyle)
    (hsty : cfg.syntect = some style) (hinj : style.inject_css = true)
    (hmem : style.theme ∉ themes) :
    get_theme themes style = Except.error ("Theme '" ++ style.theme ++ "' not found")
  ∧ push_html_with_highlighting css_for_theme themes cfg output
      = (output,
        ["Failed to generate syntax highlighting CSS: "
          ++ ("Theme '" ++ style.theme ++ "' not found")]) := by
  have hthm : get_theme themes style
      = Except.error ("Theme '" ++ style.theme ++ "' not found") := by
    rw [get_theme, if_neg hmem]
  refine ⟨hthm, ?_⟩
  rw [push_html_with_highlighting, hsty]
  simp only [hinj, if_pos, get_theme_css, hthm, Except.map]

/-- C8 witness: a concrete configuration naming a nonexistent theme. -/
theorem c8_theme_error_downgraded_witness :
    ({ HtmlConfig.default with
        syntect := some { theme := "missing-theme", inject_css := true } }
          : HtmlConfig).syntect
        = some { theme := "missing-theme", inject_css := true }
  ∧ "missing-theme" ∉ ["base16-ocean.dark"]
  ∧ push_html_with_highlighting (fun t => t) ["base16-ocean.dark"]
      { HtmlConfig.default with
          syntect := some { theme := "missing-theme", inject_css := true } }
      "<p>x</p>"
      = ("<p>x</p>",
        ["Failed to generate syntax highlighting CSS: "
          ++ ("Theme '" ++ "missing-theme" ++ "' not found")]) :=
  ⟨rfl, by decide,
    (c8_theme_error_downgraded (fun t => t) ["base16-ocean.dark"]
      { HtmlConfig.default with
          syntect := some { theme := "missing-theme", inject_css := true } }
      "<p>x</p>" { theme := "missing-theme", inject_css := true }
      rfl rfl (by decide)).2⟩

/-! ## C1: image alt-text collection -/

theorem collect_loop_eq_spec :
    ∀ (evs : List Event) (alt : String) (nest : Nat),
      collect_alt_text_loop alt nest evs = alt ++ alt_text_spec nest evs := by
  intro evs
  induction evs with
  | nil =>
      intro alt nest
      rw [collect_alt_text_loop, alt_text_spec, str_append_empty]
  | cons e rest ih =>
      intro alt nest
      cases e with
      | Start tg =>
          show collect_alt_text_loop alt (nest + 1) rest = alt ++ alt_text_spec (nest + 1) rest
          exact ih alt (nest + 1)
      | End tg =>
          show (if nest = 0 then alt else collect_alt_text_loop alt (nest - 1) rest)
            = alt ++ (if nest = 0 then "" else alt_text_spec (nest - 1) rest)
          by_cases h : nest = 0
          · rw [if_pos h, if_pos h, str_append_empty]
          · rw [if_neg h, if_neg h]
            exact ih alt (nest - 1)
      | Text t =>
          show collect_alt_text_loop (alt ++ t) nest rest
            = alt ++ (t ++ alt_text_spec nest rest)
          rw [← str_assoc]
          exact ih (alt ++ t) nest
      | Code t =>
          show collect_alt_text_loop (alt ++ t) nest rest
            = alt ++ (t ++ alt_text_spec nest rest)
          rw [← str_assoc]
          exact ih (alt ++ t) nest
      | SoftBreak =>
          show collect_alt_text_loop (alt ++ " ") nest rest
            = alt ++ (" " ++ alt_text_spec nest rest)
          rw [← str_assoc]
          exact ih (alt ++ " ") nest
      | HardBreak =>
          show collect_alt_text_loop (alt ++ " ") nest rest
            = alt ++ (" " ++ alt_text_spec nest rest)
          rw [← str_assoc]
          exact ih (alt ++ " ") nest
      | Html t =>
          show collect_alt_text_loop alt nest rest = alt ++ alt_text_spec nest rest
          exact ih alt nest
      | Rule =>
          show collect_alt_text_loop alt nest rest = alt ++ alt_text_spec nest rest
          exact ih alt nest
      | FootnoteReference nm =>
          show collect_alt_text_loop alt nest rest = alt ++ alt_text_spec nest rest
          exact ih alt nest
      | TaskListMarker ck =>
          show collect_alt_text_loop alt nest rest = alt ++ alt_text_spec nest rest
          exact ih alt nest

theorem alt_spec_terminates :
    ∀ (evs : List Event) (nest : Nat) (t : Tag) (rest : List Event),
      alt_loop_survives nest evs = true → alt_nest_after nest evs = 0 →
      alt_text_spec nest (evs ++ Event.End t :: rest) = flatten_alt evs := by
  intro evs
  induction evs with
  | nil =>
      intro nest t rest hs hn
      rw [alt_nest_after] at hn
      subst hn
      rw [List.nil_append, alt_text_spec, flatten_alt]
      simp
  | cons e evs ih =>
      intro nest t rest hs hn
      cases e with
      | Start tg =>
          show alt_text_spec (nest + 1) (evs ++ Event.End t :: rest) = "" ++ flatten_alt evs
          rw [str_empty_append]
          exact ih (nest + 1) t rest hs hn
      | End tg =>
          have hs' : (if nest = 0 then false else alt_loop_survives (nest - 1) evs)
              = true := hs
          by_cases h : nest = 0
          · rw [if_pos h] at hs'
            exact absurd hs' (by simp)
          · rw [if_neg h] at hs'
            show (if nest = 0 then ""
                  else alt_text_spec (nest - 1) (evs ++ Event.End t :: rest))
              = "" ++ flatten_alt evs
            rw [if_neg h, str_empty_append]
            exact ih (nest - 1) t rest hs' hn
      | Text s =>
          show s ++ alt_text_spec nest (evs ++ Event.End t :: rest) = s ++ flatten_alt evs
          rw [ih nest t rest hs hn]
      | Code s =>
          show s ++ alt_text_spec nest (evs ++ Event.End t :: rest) = s ++ flatten_alt evs
          rw [ih nest t rest hs hn]
      | SoftBreak =>
          show " " ++ alt_text_spec nest (evs ++ Event.End t :: rest)
            = " " ++ flatten_alt evs
          rw [ih nest t rest hs hn]
      | HardBreak =>
          show " " ++ alt_text_spec nest (evs ++ Event.End t :: rest)
            = " " ++ flatten_alt evs
          rw [ih nest t rest hs hn]
      | Html s =>
          show alt_text_spec nest (evs ++ Event.End t :: rest) = "" ++ flatten_alt evs
          rw [str_empty_append]
          exact ih nest t rest hs hn
      | Rule =>
          show alt_text_spec nest (evs ++ Event.End t :: rest) = "" ++ flatten_alt evs
          rw [str_empty_append]
          exact ih nest t rest hs hn
      | FootnoteReference nm =>
          show alt_text_spec nest (evs ++ Event.End t :: rest) = "" ++ flatten_alt evs
          rw [str_empty_append]
          exact ih nest t rest hs hn
      | TaskListMarker ck =>
          show alt_text_spec nest (evs ++ Event.End t :: rest) = "" ++ flatten_alt evs
          rw [str_empty_append]
          exact ih nest t rest hs hn

/-- C1: `collect_alt_text` computes exactly the algorithm the spec states
(the accumulator loop of the source equals the direct recursion written
from the spec's words), and on any properly nested internal event
sequence — arbitrary nesting depth — followed by the image-level `End`,
the result is the flattened, tag-free concatenation of text/inline-code
content and single spaces for breaks, independent of whatever events
follow the terminating `End`. -/
theorem c1_alt_text_collection :
    (∀ events : List Event, collect_alt_text events = alt_text_spec 0 events)
  ∧ (∀ (events : List Event) (t : Tag) (rest : List Event),
      alt_loop_survives 0 events = true → alt_nest_after 0 events = 0 →
      collect_alt_text (events ++ Event.End t :: rest) = flatten_alt events) :=
  ⟨fun events => by
      rw [collect_alt_text, collect_loop_eq_spec, str_empty_append],
    fun events t rest hs hn => by
      rw [collect_alt_text, collect_loop_eq_spec, str_empty_append,
        alt_spec_terminates events 0 t rest hs hn]⟩

/-- C1 witness: a nested emphasis/strong span with text, inline code and a
soft break, terminated by the image-level `End`; the trailing events after
that `End` do not contribute. -/
theorem c1_alt_text_collection_witness :
    alt_loop_survives 0
        [Event.Start Tag.Emphasis, Event.Text "a", Event.Start Tag.Strong,
          Event.Code "b", Event.End Tag.Strong, Event.SoftBreak,
          Event.End Tag.Emphasis, Event.Text "c"] = true
  ∧ collect_alt_text
        ([Event.Start Tag.Emphasis, Event.Text "a", Event.Start Tag.Strong,
          Event.Code "b", Event.End Tag.Strong, Event.SoftBreak,
          Event.End Tag.Emphasis, Event.Text "c"]
          ++ Event.End (Tag.Image LinkType.Inline "img.png" "") :: [Event.Text "ZZZ"])
      = flatten_alt
          [Event.Start Tag.Emphasis, Event.Text "a", Event.Start Tag.Strong,
            Event.Code "b", Event.End Tag.Strong, Event.SoftBreak,
            Event.End Tag.Emphasis, Event.Text "c"] :=
  ⟨by decide,
    c1_alt_text_collection.2
      [Event.Start Tag.Emphasis, Event.Text "a", Event.Start Tag.Strong,
        Event.Code "b", Event.End Tag.Strong, Event.SoftBreak,
        Event.End Tag.Emphasis, Event.Text "c"]
      (Tag.Image LinkType.Inline "img.png" "") [Event.Text "ZZZ"]
      (by decide) (by decide)⟩

/-! ## C5: link policy attributes

The positive half exhibits the attribute text inside the written output;
the negative half shows that for a non-external destination neither
attribute can occur anywhere in the output, because every quote character
of the output is accounted for: the escaped href and the escaped title
contain no quote, and none of the fixed quotes is preceded by `rel=` /
`target=` and followed by `nofollow` / `_blank`. -/

theorem split_at_char {c : Char} :
    ∀ (P : List Char) {R x y : List Char}, P ++ c :: R = x ++ c :: y → c ∉ P →
      (x = P ∧ y = R) ∨ (∃ x₁, x = P ++ c :: x₁ ∧ R = x₁ ++ c :: y) := by
  intro P
  induction P with
  | nil =>
      intro R x y h hP
      cases x with
      | nil =>
          left
          rw [List.nil_append, List.nil_append] at h
          injection h with h1 h2
          exact ⟨rfl, h2.symm⟩
      | cons a x' =>
          right
          rw [List.nil_append, List.cons_append] at h
          injection h with h1 h2
          refine ⟨x', ?_, h2⟩
          rw [List.nil_append, h1]
  | cons p P' ih =>
      intro R x y h hP
      have hcp : c ≠ p := fun hh => hP (by simp [hh])
      cases x with
      | nil =>
          rw [List.cons_append, List.nil_append] at h
          injection h with h1 h2
          exact absurd h1.symm hcp
      | cons a x' =>
          rw [List.cons_append, List.cons_append] at h
          injection h with h1 h2
          subst h1
          rcases ih h2 (fun hm => hP (List.mem_cons_of_mem _ hm)) with
            ⟨hx, hy⟩ | ⟨x₁, hx, hR⟩
          · left
            exact ⟨by rw [hx], hy⟩
          · right
            exact ⟨x₁, by rw [hx, List.cons_append], hR⟩

theorem prefix_head_eq {post : List Char} {c : Char} {l : List Char}
    (h : post <+: c :: l) : post = [] ∨ post.head? = some c := by
  cases post with
  | nil => exact Or.inl rfl
  | cons a p =>
      right
      rcases h with ⟨t, ht⟩
      rw [List.cons_append] at ht
      injection ht with h1 _
      rw [h1]
      rfl

theorem suffix_of_append {l w t : List Char} (h : l <:+ w ++ t)
    (hlen : l.length ≤ t.length) : l <:+ t := by
  rcases h with ⟨u, hu⟩
  rcases List.append_eq_append_iff.mp hu with ⟨a, _, ha2⟩ | ⟨a, _, ha2⟩
  · have halen : a = [] := by
      have := congrArg List.length ha2
      simp only [List.length_append] at this
      have : a.length = 0 := by omega
      exact List.length_eq_zero.mp this
    subst halen
    rw [List.nil_append] at ha2
    rw [← ha2]
  · exact ⟨a, ha2.symm⟩

theorem not_infix_link2 (pre post E : List Char)
    (hE : '"' ∉ E) (hlen : 2 ≤ post.length)
    (hpre : ¬ pre <:+ "<a href=".data) :
    ¬ (pre ++ '"' :: post) <:+: ("<a href=".data ++ '"' :: (E ++ '"' :: ['>'])) := by
  rintro ⟨u, v, huv⟩
  have huv' : "<a href=".data ++ '"' :: (E ++ '"' :: ['>'])
      = (u ++ pre) ++ '"' :: (post ++ v) := by
    rw [← huv]
    simp [List.append_assoc]
  have hq : '"' ∉ "<a href=".data := by decide
  rcases split_at_char "<a href=".data huv' hq with ⟨hx, _⟩ | ⟨x₁, _, hR⟩
  · exact hpre ⟨u, hx⟩
  · rcases split_at_char E hR hE with ⟨_, hy⟩ | ⟨x₂, _, hR2⟩
    · have : post <+: ['>'] := ⟨v, hy⟩
      have := this.length_le
      simp at this
      omega
    · cases x₂ with
      | nil =>
          rw [List.nil_append] at hR2
          injection hR2 with h1 _
          exact absurd h1 (by decide)
      | cons a x' =>
          rw [List.cons_append] at hR2
          injection hR2 with _ h2
          exact absurd h2.symm (by simp)

theorem not_infix_link4 (pre post E H : List Char)
    (hE : '"' ∉ E) (hH : '"' ∉ H) (hlen : 2 ≤ post.length)
    (hpre1 : ¬ pre <:+ "<a href=".data)
    (hpre2 : ¬ pre <:+ " title=".data) (hprelen : pre.length ≤ 7)
    (hpost : post.head? ≠ some ' ') :
    ¬ (pre ++ '"' :: post) <:+:
      ("<a href=".data
        ++ '"' :: (E ++ '"' :: (" title=".data ++ '"' :: (H ++ '"' :: ['>'])))) := by
  rintro ⟨u, v, huv⟩
  have huv' : "<a href=".data
      ++ '"' :: (E ++ '"' :: (" title=".data ++ '"' :: (H ++ '"' :: ['>'])))
      = (u ++ pre) ++ '"' :: (post ++ v) := by
    rw [← huv]
    simp [List.append_assoc]
  have hq : '"' ∉ "<a href=".data := by decide
  rcases split_at_char "<a href=".data huv' hq with ⟨hx, _⟩ | ⟨x₁, hx1, hR⟩
  · exact hpre1 ⟨u, hx⟩
  · rcases split_at_char E hR hE with ⟨_, hy⟩ | ⟨x₂, hx2, hR2⟩
    · have hpref : post <+: ' ' :: ("title=".data ++ '"' :: (H ++ '"' :: ['>'])) := by
        refine ⟨v, ?_⟩
        rw [hy]
        rfl
      rcases prefix_head_eq hpref with hnil | hhead
      · rw [hnil] at hlen
        simp at hlen
      · exact hpost hhead
    · have hqT : '"' ∉ " title=".data := by decide
      rcases split_at_char " title=".data hR2 hqT with ⟨hx3, hy3⟩ | ⟨x₃, hx3, hR3⟩
      · -- the third quote: `pre` would have to end the text before it,
        -- whose last seven characters are " title="
        have hxfull : u ++ pre
            = ("<a href=".data ++ '"' :: E ++ ['"']) ++ " title=".data := by
          rw [hx1, hx2, hx3]
          simp [List.append_assoc]
        have hsuf : pre <:+ ("<a href=".data ++ '"' :: E ++ ['"']) ++ " title=".data :=
          ⟨u, hxfull⟩
        exact hpre2 (suffix_of_append hsuf (by simpa using hprelen))
      · rcases split_at_char H hR3 hH with ⟨_, hy4⟩ | ⟨x₄, _, hR4⟩
        · have : post <+: ['>'] := ⟨v, hy4⟩
          have := this.length_le
          simp at this
          omega
        · cases x₄ with
          | nil =>
              rw [List.nil_append] at hR4
              injection hR4 with h1 _
              exact absurd h1 (by decide)
          | cons a x' =>
              rw [List.cons_append] at hR4
              injection hR4 with _ h2
              exact absurd h2.symm (by simp)

theorem start_link_data_internal_notitle (cfg : HtmlConfig) (lt : LinkType) (dest : String)
    (hattr : cfg.attributes.element_attributes.lookup "a" = none)
    (hext : is_external_link dest = false) :
    (start_link cfg lt dest "").data
      = "<a href=".data ++ '"' :: ((escape_href dest).data ++ '"' :: ['>']) := by
  have h1 : ("<a href=\"" : String).data = "<a href=".data ++ ['"'] := rfl
  have h2 : ("\"" : String).data = ['"'] := rfl
  have h3 : (">" : String).data = ['>'] := rfl
  have h4 : ("" : String).data = [] := rfl
  rw [start_link, write_attributes, hattr]
  simp [hext, String.data_append, List.append_assoc, h1, h2, h3, h4]

theorem start_link_data_internal_title (cfg : HtmlConfig) (lt : LinkType)
    (dest title : String)
    (hattr : cfg.attributes.element_attributes.lookup "a" = none)
    (hext : is_external_link dest = false) (htitle : title ≠ "") :
    (start_link cfg lt dest title).data
      = "<a href=".data ++ '"' :: ((escape_href dest).data
          ++ '"' :: (" title=".data ++ '"' :: ((escape_html title).data ++ '"' :: ['>']))) := by
  have h1 : ("<a href=\"" : String).data = "<a href=".data ++ ['"'] := rfl
  have h2 : ("\"" : String).data = ['"'] := rfl
  have h3 : (">" : String).data = ['>'] := rfl
  have h4 : ("" : String).data = [] := rfl
  have h5 : ("\" title=\"" : String).data = '"' :: (" title=".data ++ ['"']) := rfl
  rw [start_link, write_attributes, hattr]
  simp [hext, htitle, String.data_append, List.append_assoc, h1, h2, h3, h4, h5]

/-- C5: for a destination starting with `http://` or `https://`, with both
link-policy flags enabled, the emitted anchor tag contains both
`rel="nofollow"` and `target="_blank"`; for a destination starting with
neither prefix, neither attribute occurs anywhere in the emitted tag, for
every flag combination (with no configured element attributes for `a`). -/
theorem c5_link_policy (cfg : HtmlConfig) (lt : LinkType) (dest title : String)
    (hattr : cfg.attributes.element_attributes.lookup "a" = none) :
    (("http://".data <+: dest.data ∨ "https://".data <+: dest.data) →
      cfg.elements.links.nofollow_external = true →
      cfg.elements.links.open_external_blank = true →
      "rel=\"nofollow\"".data <:+: (start_link cfg lt dest title).data
        ∧ "target=\"_blank\"".data <:+: (start_link cfg lt dest title).data)
  ∧ (¬ "http://".data <+: dest.data → ¬ "https://".data <+: dest.data →
      ¬ "rel=\"nofollow\"".data <:+: (start_link cfg lt dest title).data
        ∧ ¬ "target=\"_blank\"".data <:+: (start_link cfg lt dest title).data) := by
  constructor
  · intro hst hnf hob
    have hext : is_external_link dest = true := by
      rw [is_external_link]
      rcases hst with h | h <;> simp [List.isPrefixOf_iff_prefix, h]
    have hwa : write_attributes cfg "a" = "" := by
      rw [write_attributes, hattr]
    have hsplit : start_link cfg lt dest title
        = ("<a href=\"" ++ (escape_href dest
            ++ (if title ≠ "" then "\" title=\"" ++ escape_html title else "")))
          ++ ("\" rel=\"nofollow" ++ ("\" target=\"_blank" ++ ("\"" ++ ("" ++ ">")))) := by
      rw [start_link, hwa]
      simp [hext, hnf, hob, str_assoc]
    have hsuf : ("\" rel=\"nofollow"
          ++ ("\" target=\"_blank" ++ ("\"" ++ ("" ++ ">")))).data
        <:+ (start_link cfg lt dest title).data := by
      rw [hsplit, String.data_append]
      exact ⟨_, rfl⟩
    constructor
    · exact (by decide : "rel=\"nofollow\"".data
          <:+: ("\" rel=\"nofollow"
            ++ ("\" target=\"_blank" ++ ("\"" ++ ("" ++ ">")))).data).trans hsuf.isInfix
    · exact (by decide : "target=\"_blank\"".data
          <:+: ("\" rel=\"nofollow"
            ++ ("\" target=\"_blank" ++ ("\"" ++ ("" ++ ">")))).data).trans hsuf.isInfix
  · intro h1 h2
    have hp1 : "http://".data.isPrefixOf dest.data = false :=
      Bool.eq_false_iff.mpr (fun hh => h1 (List.isPrefixOf_iff_prefix.mp hh))
    have hp2 : "https://".data.isPrefixOf dest.data = false :=
      Bool.eq_false_iff.mpr (fun hh => h2 (List.isPrefixOf_iff_prefix.mp hh))
    have hext : is_external_link dest = false := by
      rw [is_external_link, hp1, hp2]
      rfl
    have hEq : '"' ∉ (escape_href dest).data := escape_href_no_quote dest
    have hHq : '"' ∉ (escape_html title).data := escape_html_no_quote title
    have hrel : ("rel=\"nofollow" : String).data
        = "rel=".data ++ '"' :: "nofollow".data := by decide
    have htgt : ("target=\"_blank" : String).data
        = "target=".data ++ '"' :: "_blank".data := by decide
    by_cases ht : title = ""
    · subst ht
      have hout := start_link_data_internal_notitle cfg lt dest hattr hext
      constructor
      · intro hocc
        have hocc' : ("rel=".data ++ '"' :: "nofollow".data)
            <:+: (start_link cfg lt dest "").data := by
          rw [← hrel]
          exact (by decide : "rel=\"nofollow".data
            <+: "rel=\"nofollow\"".data).isInfix.trans hocc
        rw [hout] at hocc'
        exact not_infix_link2 "rel=".data "nofollow".data _ hEq (by decide)
          (by decide) hocc'
      · intro hocc
        have hocc' : ("target=".data ++ '"' :: "_blank".data)
            <:+: (start_link cfg lt dest "").data := by
          rw [← htgt]
          exact (by decide : "target=\"_blank".data
            <+: "target=\"_blank\"".data).isInfix.trans hocc
        rw [hout] at hocc'
        exact not_infix_link2 "target=".data "_blank".data _ hEq (by decide)
          (by decide) hocc'
    · have hout := start_link_data_internal_title cfg lt dest title hattr hext ht
      constructor
      · intro hocc
        have hocc' : ("rel=".data ++ '"' :: "nofollow".data)
            <:+: (start_link cfg lt dest title).data := by
          rw [← hrel]
          exact (by decide : "rel=\"nofollow".data
            <+: "rel=\"nofollow\"".data).isInfix.trans hocc
        rw [hout] at hocc'
        exact not_infix_link4 "rel=".data "nofollow".data _ _ hEq hHq (by decide)
          (by decide) (by decide) (by decide) (by decide) hocc'
      · intro hocc
        have hocc' : ("target=".data ++ '"' :: "_blank".data)
            <:+: (start_link cfg lt dest title).data := by
          rw [← htgt]
          exact (by decide : "target=\"_blank".data
            <+: "target=\"_blank\"".data).isInfix.trans hocc
        rw [hout] at hocc'
        exact not_infix_link4 "target=".data "_blank".data _ _ hEq hHq (by decide)
          (by decide) (by decide) (by decide) (by decide) hocc'

/-- C5 witness: the default configuration (both flags on, no element
attributes) on an external and then an internal concrete destination. -/
theorem c5_link_policy_witness :
    ("https://".data <+: "https://example.com".data
      ∧ "rel=\"nofollow\"".data
          <:+: (start_link HtmlConfig.default LinkType.Inline "https://example.com" "").data
      ∧ "target=\"_blank\"".data
          <:+: (start_link HtmlConfig.default LinkType.Inline "https://example.com" "").data)
  ∧ (¬ "http://".data <+: "/local".data
      ∧ ¬ "rel=\"nofollow\"".data
          <:+: (start_link HtmlConfig.default LinkType.Inline "/local" "t").data
      ∧ ¬ "target=\"_blank\"".data
          <:+: (start_link HtmlConfig.default LinkType.Inline "/local" "t").data) := by
  have hpos := (c5_link_policy HtmlConfig.default LinkType.Inline "https://example.com" ""
    rfl).1 (Or.inr (by decide)) rfl rfl
  have hneg := (c5_link_policy HtmlConfig.default LinkType.Inline "/local" "t"
    rfl).2 (by decide) (by decide)
  exact ⟨⟨by decide, hpos.1, hpos.2⟩, ⟨by decide, hneg.1, hneg.2⟩⟩

end PulldownHtmlExt
